import Mathlib

/-!
Verification of the `ZStream` compression stream adapter
(`include/mitsuba/core/zstream.h`).

The repository ships only the header.  The inline members
(`is_closed`, `seek`, `truncate`, `tell`, `size`, `can_read`, `can_write`)
are embedded directly from the header; the out-of-line members
(`close`, `read`, `write`, `flush`) are modelled from the specification's
component design (§4.1–§4.4).  The external zlib codec is out of scope per
the specification (§1); it is modelled as a lossless codec over the
feed-input / produce-output-chunk / flush / finish interface, whose encoding
of a byte sequence is the sequence itself.  Bytes are modelled as natural
numbers; the staged-buffer protocol moves them in chunks of at most
`kZStreamBufferSize`.
-/

namespace Mitsuba

/-- Error taxonomy of the adapter, from spec §7. -/
inductive Err where
  | AlreadyClosed
  | UnsupportedOperation
  | PrematureEndOfStream
  | CodecError
  | ChildStreamError
deriving DecidableEq, Repr

/-- Staging-buffer capacity used to communicate with zlib
(`detail::kZStreamBufferSize` in zstream.h). -/
def kZStreamBufferSize : Nat := 32768

/-- Model of the generic sequential child stream: `data` is the full byte
content, `pos` the read cursor, `closed` its own open/closed state, and
`can_read` / `can_write` its capability flags (spec §6: an opaque stream
backend with read/write/flush/close and capability queries). -/
structure Stream where
  data : List Nat
  pos : Nat
  closed : Bool
  can_read : Bool
  can_write : Bool
deriving DecidableEq, Repr

/-- A write to the child stream appends the bytes to its content. -/
def Stream.write (c : Stream) (bs : List Nat) : Stream :=
  { c with data := c.data ++ bs }

/-- Modelled from the spec: a codec engine instance (spec §2, §3 —
`compressContext` / `decompressContext`, external library, out of scope).
Its observable state is the pending bytes it has accepted but not yet
emitted; the codec is lossless, so the emitted byte sequence equals the
fed byte sequence. -/
structure CodecCtx where
  pending : List Nat
deriving DecidableEq, Repr

/-- The adapter's state.  `m_child_stream`, the two codec contexts and
`m_didWrite` come from the header's private fields; `closed` is modelled
from the spec (§3: "`closed`: boolean, set once `close()` has run to
completion") since the out-of-line member bodies are not in the header. -/
structure ZStream where
  m_child_stream : Stream
  m_deflate : CodecCtx
  m_inflate : CodecCtx
  m_didWrite : Bool
  closed : Bool
deriving DecidableEq, Repr

/-- Modelled from the spec: the constructor initializes both codec contexts
eagerly (spec §3 invariants), starts with no data written and not closed. -/
def mkZStream (child : Stream) : ZStream :=
  { m_child_stream := child
    m_deflate := ⟨[]⟩
    m_inflate := ⟨[]⟩
    m_didWrite := false
    closed := false }

/-- The body of `ZStream::is_closed` from the header (line 45):
`m_child_stream && m_child_stream->is_closed()`, over a possibly-null
`ref<Stream>` handle. -/
def is_closed_of (h : Option Stream) : Bool :=
  match h with
  | none => false
  | some c => c.closed

/-- `ZStream::is_closed` on an adapter whose handle is non-null. -/
def ZStream.is_closed (s : ZStream) : Bool :=
  is_closed_of (some s.m_child_stream)

/-- `ZStream::seek` (header): unconditionally raises via `Log(EError, ...)`;
spec §4.5 classifies this as `UnsupportedOperation`. -/
def ZStream.seek (_ : ZStream) (_ : Nat) : Except Err Unit :=
  .error .UnsupportedOperation

/-- `ZStream::truncate` (header): unconditionally raises. -/
def ZStream.truncate (_ : ZStream) (_ : Nat) : Except Err Unit :=
  .error .UnsupportedOperation

/-- `ZStream::tell` (header): unconditionally raises. -/
def ZStream.tell (_ : ZStream) : Except Err Nat :=
  .error .UnsupportedOperation

/-- `ZStream::size` (header): unconditionally raises. -/
def ZStream.size (_ : ZStream) : Except Err Nat :=
  .error .UnsupportedOperation

/-- `ZStream::can_write` (header): `return m_child_stream->can_write();`. -/
def ZStream.can_write (s : ZStream) : Bool :=
  s.m_child_stream.can_write

/-- `ZStream::can_read` (header): `return m_child_stream->can_read();`. -/
def ZStream.can_read (s : ZStream) : Bool :=
  s.m_child_stream.can_read

/-- Modelled from the spec (§4.1 step 3): the write-path loop asks the
compress context for output a full staging buffer at a time and pushes each
produced chunk to the child stream, as long as a full buffer was produced;
output shorter than the buffer stays inside the codec until a flush or
finish.  Returns the bytes still held by the codec and the updated child. -/
def emitFull (pending : List Nat) (child : Stream) : List Nat × Stream :=
  if h : kZStreamBufferSize ≤ pending.length then
    emitFull (pending.drop kZStreamBufferSize)
      (child.write (pending.take kZStreamBufferSize))
  else
    (pending, child)
termination_by pending.length
decreasing_by
  simp only [List.length_drop]
  have : 0 < kZStreamBufferSize := by decide
  omega

/-- Modelled from the spec (§4.3 sync-flush, §4.4 finish mode): drive the
compress context until it reports no more pending output, writing each
produced chunk (at most one staging buffer at a time) to the child. -/
def emitAll (pending : List Nat) (child : Stream) : Stream :=
  if h : pending = [] then child
  else
    emitAll (pending.drop kZStreamBufferSize)
      (child.write (pending.take kZStreamBufferSize))
termination_by pending.length
decreasing_by
  simp only [List.length_drop]
  have h0 : pending.length ≠ 0 := by
    simpa [List.length_eq_zero] using h
  have : 0 < kZStreamBufferSize := by decide
  omega

/-- Modelled from the spec (§4.1): `write(data, n)` fails with
`AlreadyClosed` on a closed adapter; otherwise it feeds all `n` bytes to the
compress context as pending input, runs the produce/push loop, and sets
`wroteAnyData`. -/
def ZStream.write (s : ZStream) (d : List Nat) : Except Err ZStream :=
  if s.closed then .error .AlreadyClosed
  else
    let fed := s.m_deflate.pending ++ d
    let r := emitFull fed s.m_child_stream
    .ok { s with
      m_child_stream := r.2
      m_deflate := ⟨r.1⟩
      m_didWrite := true }

/-- Modelled from the spec (§4.3): `flush()` fails with `AlreadyClosed` on a
closed adapter; if the write side was ever used it drives the compress
context in sync-flush mode, emitting everything to the child; on a
never-written adapter it is a no-op on the child (the choice the spec's
open question permits). -/
def ZStream.flush (s : ZStream) : Except Err ZStream :=
  if s.closed then .error .AlreadyClosed
  else if s.m_didWrite then
    .ok { s with
      m_child_stream := emitAll s.m_deflate.pending s.m_child_stream
      m_deflate := ⟨[]⟩ }
  else .ok s

/-- Modelled from the spec (§4.4): the first `close()` runs the compress
context in finish mode when `wroteAnyData` holds, releases the contexts and
marks the adapter closed; it never closes the child; subsequent calls are
no-ops. -/
def ZStream.close (s : ZStream) : ZStream :=
  if s.closed then s
  else
    let child :=
      if s.m_didWrite then emitAll s.m_deflate.pending s.m_child_stream
      else s.m_child_stream
    { s with
      m_child_stream := child
      m_deflate := ⟨[]⟩
      m_inflate := ⟨[]⟩
      closed := true }

/-- Modelled from the spec (§4.2): one round of the read loop.  While bytes
are outstanding: refill the decompress context from the child (up to one
staging buffer) when it has no pending input, failing with
`PrematureEndOfStream` if the child yields nothing; then produce up to the
outstanding count into the caller's buffer. -/
def readAux (need : Nat) (child : Stream) (ctx : CodecCtx) :
    Except Err (List Nat × Stream × CodecCtx) :=
  if h0 : need = 0 then .ok ([], child, ctx)
  else if hp : ctx.pending = [] then
    let chunk := (child.data.drop child.pos).take kZStreamBufferSize
    if hc : chunk = [] then .error .PrematureEndOfStream
    else
      let child1 : Stream := { child with pos := child.pos + chunk.length }
      let out := chunk.take need
      (readAux (need - out.length) child1 ⟨chunk.drop need⟩).map
        (fun r => (out ++ r.1, r.2))
  else
    let out := ctx.pending.take need
    (readAux (need - out.length) child ⟨ctx.pending.drop need⟩).map
      (fun r => (out ++ r.1, r.2))
termination_by need
decreasing_by
  · have h1 : 0 < ((child.data.drop child.pos).take kZStreamBufferSize).length :=
      List.length_pos.mpr hc
    have hl : (((child.data.drop child.pos).take kZStreamBufferSize).take need).length =
      min need ((child.data.drop child.pos).take kZStreamBufferSize).length := by
      simp
    omega
  · have h1 : 0 < ctx.pending.length := List.length_pos.mpr hp
    have hl : (ctx.pending.take need).length = min need ctx.pending.length := by
      simp
    omega

/-- Modelled from the spec (§4.2): `read(buffer, n)` fails with
`AlreadyClosed` on a closed adapter, otherwise runs the read loop and
returns the `n` delivered bytes together with the updated adapter. -/
def ZStream.read (s : ZStream) (n : Nat) : Except Err (List Nat × ZStream) :=
  if s.closed then .error .AlreadyClosed
  else
    match readAux n s.m_child_stream s.m_inflate with
    | .ok (bs, c, x) =>
        .ok (bs, { s with m_child_stream := c, m_inflate := x })
    | .error e => .error e

/-- The decompressed bytes still obtainable through the adapter's read side:
pending codec input followed by the child's unread bytes (the codec is
lossless, so compressed and decompressed byte counts agree). -/
def availOf (child : Stream) (ctx : CodecCtx) : List Nat :=
  ctx.pending ++ child.data.drop child.pos

/-- `availOf` for an adapter. -/
def ZStream.avail (s : ZStream) : List Nat :=
  availOf s.m_child_stream s.m_inflate

/-! ## Helper lemmas about the staged write loops -/

lemma emitFull_append (p : List Nat) (c : Stream) :
    (emitFull p c).2.data ++ (emitFull p c).1 = c.data ++ p := by
  induction p, c using emitFull.induct with
  | case1 p c h ih =>
      rw [emitFull, dif_pos h]
      rw [ih]
      simp [Stream.write, List.append_assoc]
  | case2 p c h =>
      rw [emitFull, dif_neg h]

lemma emitFull_shape (p : List Nat) (c : Stream) :
    (emitFull p c).2 = { c with data := (emitFull p c).2.data } := by
  induction p, c using emitFull.induct with
  | case1 p c h ih =>
      rw [emitFull, dif_pos h]
      rw [ih]
      simp [Stream.write]
  | case2 p c h =>
      rw [emitFull, dif_neg h]

lemma emitAll_data (p : List Nat) (c : Stream) :
    (emitAll p c).data = c.data ++ p := by
  induction p, c using emitAll.induct with
  | case1 c => simp [emitAll]
  | case2 p c h ih =>
      rw [emitAll, dif_neg h]
      rw [ih]
      simp [Stream.write, List.append_assoc]

lemma emitAll_shape (p : List Nat) (c : Stream) :
    emitAll p c = { c with data := (emitAll p c).data } := by
  induction p, c using emitAll.induct with
  | case1 c => simp [emitAll]
  | case2 p c h ih =>
      rw [emitAll, dif_neg h]
      rw [ih]
      simp [Stream.write]

/-! ## Helper lemmas about the read loop -/

lemma drop_take_length {α : Type} (n : Nat) (l : List α) :
    l.drop (l.take n).length = l.drop n := by
  rcases le_or_lt n l.length with h | h
  · rw [List.length_take, Nat.min_eq_left h]
  · rw [List.length_take, Nat.min_eq_right (Nat.le_of_lt h),
      List.drop_length, List.drop_eq_nil_of_le (Nat.le_of_lt h)]

/-- Full behaviour of the read loop: when at least `need` decompressed bytes
are reachable it succeeds and delivers exactly the first `need` of them,
moving only the child's read cursor; otherwise it fails with
`PrematureEndOfStream`. -/
lemma readAux_spec (need : Nat) (child : Stream) (ctx : CodecCtx) :
    (need ≤ (availOf child ctx).length →
      ∃ q x, readAux need child ctx =
        Except.ok ((availOf child ctx).take need, { child with pos := q }, x))
    ∧ ((availOf child ctx).length < need →
      readAux need child ctx = Except.error Err.PrematureEndOfStream) := by
  induction need, child, ctx using readAux.induct with
  | case1 child ctx =>
      constructor
      · intro _
        refine ⟨child.pos, ctx, ?_⟩
        rw [readAux]
        simp
      · intro hlt
        omega
  | case2 need child ctx h0 hp chunk hc =>
      have hchunk : chunk = (child.data.drop child.pos).take kZStreamBufferSize := rfl
      clear_value chunk
      subst hchunk
      have hnil : child.data.drop child.pos = [] := by
        rcases List.take_eq_nil_iff.mp hc with h | h
        · exact absurd h (by decide)
        · exact h
      have hav : (availOf child ctx).length = 0 := by
        simp [availOf, hp, hnil]
      constructor
      · intro hle
        omega
      · intro _
        rw [readAux]
        simp only [dif_neg h0, dif_pos hp, dif_pos hc]
  | case3 need child ctx h0 hp chunk hc child1 out ih =>
      have hchild1 : child1 = { child with pos := child.pos + chunk.length } := rfl
      have hout : out = chunk.take need := rfl
      have hchunk : chunk = (child.data.drop child.pos).take kZStreamBufferSize := rfl
      clear_value chunk child1 out
      subst hchild1 hout hchunk
      set L := child.data.drop child.pos with hLdef
      set chunk := L.take kZStreamBufferSize with hchunkdef
      set out := chunk.take need with houtdef
      set rest := chunk.drop need ++ child.data.drop (child.pos + chunk.length)
        with hrestdef
      have hL : chunk ++ child.data.drop (child.pos + chunk.length) = L := by
        rw [hchunkdef, ← List.drop_drop, drop_take_length, hLdef,
          List.take_append_drop]
      have hsplit : availOf child ctx = out ++ rest := by
        simp only [availOf, hp, List.nil_append, ← hLdef]
        rw [hrestdef, houtdef, ← List.append_assoc, List.take_append_drop]
        exact hL.symm
      have holen : out.length = min need chunk.length := by
        rw [houtdef, List.length_take]
      have hav2 : (availOf { child with pos := child.pos + chunk.length }
          ⟨chunk.drop need⟩) = rest := by
        simp only [availOf, hrestdef]
      have hlen : (availOf child ctx).length = out.length + rest.length := by
        rw [hsplit, List.length_append]
      constructor
      · intro hle
        have hle2 : need - out.length ≤ rest.length := by omega
        have hle3 : need - out.length ≤
            (availOf { child with pos := child.pos + chunk.length }
              ⟨chunk.drop need⟩).length := by
          rw [hav2]; exact hle2
        obtain ⟨q, x, heq⟩ := ih.1 hle3
        refine ⟨q, x, ?_⟩
        rw [readAux]
        simp only [dif_neg h0, dif_pos hp, dif_neg hc]
        rw [← hLdef, ← hchunkdef, ← houtdef]
        have hchild2 : ({ child with pos := child.pos + chunk.length } : Stream) =
            { data := child.data, pos := child.pos + chunk.length,
              closed := child.closed, can_read := child.can_read,
              can_write := child.can_write } := rfl
        rw [← hchild2, heq, hav2]
        simp only [Except.map]
        have htake : (availOf child ctx).take need =
            out ++ rest.take (need - out.length) := by
          rw [hsplit, List.take_append_eq_append_take,
            List.take_of_length_le (by omega : out.length ≤ need)]
        rw [htake]
      · intro hlt
        have hlt2 : (availOf { child with pos := child.pos + chunk.length }
            ⟨chunk.drop need⟩).length < need - out.length := by
          rw [hav2]; omega
        have herr := ih.2 hlt2
        rw [readAux]
        simp only [dif_neg h0, dif_pos hp, dif_neg hc]
        rw [← hLdef, ← hchunkdef, ← houtdef]
        have hchild2 : ({ child with pos := child.pos + chunk.length } : Stream) =
            { data := child.data, pos := child.pos + chunk.length,
              closed := child.closed, can_read := child.can_read,
              can_write := child.can_write } := rfl
        rw [← hchild2, herr]
        rfl
  | case4 need child ctx h0 hp out ih =>
      have hout : out = ctx.pending.take need := rfl
      clear_value out
      subst hout
      set out := ctx.pending.take need with houtdef
      set rest := ctx.pending.drop need ++ child.data.drop child.pos with hrestdef
      have hsplit : availOf child ctx = out ++ rest := by
        simp only [availOf, houtdef, hrestdef]
        rw [← List.append_assoc, List.take_append_drop]
      have holen : out.length = min need ctx.pending.length := by
        rw [houtdef, List.length_take]
      have hav2 : availOf child ⟨ctx.pending.drop need⟩ = rest := by
        simp only [availOf, hrestdef]
      have hlen : (availOf child ctx).length = out.length + rest.length := by
        rw [hsplit, List.length_append]
      constructor
      · intro hle
        have hle3 : need - out.length ≤
            (availOf child ⟨ctx.pending.drop need⟩).length := by
          rw [hav2]; omega
        obtain ⟨q, x, heq⟩ := ih.1 hle3
        refine ⟨q, x, ?_⟩
        rw [readAux]
        simp only [dif_neg h0, dif_neg hp]
        rw [← houtdef, heq, hav2]
        simp only [Except.map]
        have htake : (availOf child ctx).take need =
            out ++ rest.take (need - out.length) := by
          rw [hsplit, List.take_append_eq_append_take,
            List.take_of_length_le (by omega : out.length ≤ need)]
        rw [htake]
      · intro hlt
        have hlt2 : (availOf child ⟨ctx.pending.drop need⟩).length <
            need - out.length := by
          rw [hav2]; omega
        have herr := ih.2 hlt2
        rw [readAux]
        simp only [dif_neg h0, dif_neg hp]
        rw [← houtdef, herr]
        rfl

/-! ## Derived facts shared by the claim theorems -/

/-- An empty, open, fully capable child stream. -/
def emptyStream : Stream :=
  { data := [], pos := 0, closed := false, can_read := true, can_write := true }

/-- A fresh open child stream holding the given bytes, cursor at the start. -/
def inputStream (bs : List Nat) : Stream :=
  { data := bs, pos := 0, closed := false, can_read := true, can_write := true }

lemma emitFull_closed (p : List Nat) (c : Stream) :
    (emitFull p c).2.closed = c.closed := by
  rw [emitFull_shape p c]

lemma emitAll_closed (p : List Nat) (c : Stream) :
    (emitAll p c).closed = c.closed := by
  rw [emitAll_shape p c]

/-- The second `close` is a no-op: shared by several claims. -/
lemma closeClose (s : ZStream) : s.close.close = s.close := by
  have h : s.close.closed = true := by
    rw [ZStream.close]
    by_cases hc : s.closed
    · simp [hc]
    · simp [hc]
  conv_lhs => rw [ZStream.close]
  simp [h]

/-- Anatomy of a successful `read`: it delivers the first `n` reachable
decompressed bytes, moves only the child's read cursor and the decompress
context, and touches nothing else. -/
lemma read_ok_shape (s : ZStream) (n : Nat) (bs : List Nat) (s' : ZStream)
    (h : s.read n = Except.ok (bs, s')) :
    bs.length = n ∧ bs = s.avail.take n ∧
    s'.m_child_stream.data = s.m_child_stream.data ∧
    s'.m_child_stream.closed = s.m_child_stream.closed ∧
    s'.m_child_stream.can_read = s.m_child_stream.can_read ∧
    s'.m_child_stream.can_write = s.m_child_stream.can_write ∧
    s'.m_deflate = s.m_deflate ∧
    s'.m_didWrite = s.m_didWrite ∧
    s'.closed = s.closed := by
  by_cases hcl : s.closed
  · rw [ZStream.read, if_pos hcl] at h
    exact absurd h (by simp)
  · rcases le_or_lt n (availOf s.m_child_stream s.m_inflate).length with hle | hlt
    · obtain ⟨q, x, heq⟩ := (readAux_spec n s.m_child_stream s.m_inflate).1 hle
      rw [ZStream.read, if_neg hcl, heq] at h
      simp only [Except.ok.injEq, Prod.mk.injEq] at h
      obtain ⟨hbs, hs'⟩ := h
      subst hbs
      subst hs'
      refine ⟨?_, rfl, rfl, rfl, rfl, rfl, rfl, rfl, rfl⟩
      rw [List.length_take]
      omega
    · have herr := (readAux_spec n s.m_child_stream s.m_inflate).2 hlt
      rw [ZStream.read, if_neg hcl, herr] at h
      exact absurd h (by simp)

/-! ## The claims -/

/-- C1: Round-trip — for every byte sequence `B` (empty and
buffer-capacity-boundary sizes included), writing `B` through a fresh
adapter and closing it, then reading `|B|` bytes through a fresh adapter
wrapping a child stream that contains exactly the bytes the first adapter
produced, delivers exactly `B`. -/
theorem roundtrip_write_close_read (B : List Nat) :
    ∃ s₁ : ZStream, (mkZStream emptyStream).write B = Except.ok s₁ ∧
      ∃ s₂ : ZStream,
        (mkZStream (inputStream s₁.close.m_child_stream.data)).read B.length =
          Except.ok (B, s₂) := by
  refine ⟨{ m_child_stream := (emitFull B emptyStream).2,
            m_deflate := ⟨(emitFull B emptyStream).1⟩, m_inflate := ⟨[]⟩,
            m_didWrite := true, closed := false }, ?_, ?_⟩
  · simp [ZStream.write, mkZStream]
  · have hdata :
        (({ m_child_stream := (emitFull B emptyStream).2,
            m_deflate := ⟨(emitFull B emptyStream).1⟩, m_inflate := ⟨[]⟩,
            m_didWrite := true, closed := false } : ZStream)).close.m_child_stream.data
          = B := by
      have h := emitFull_append B emptyStream
      have h2 : emptyStream.data = [] := rfl
      rw [h2, List.nil_append] at h
      simp [ZStream.close]
      rw [emitAll_data]
      exact h
    rw [hdata]
    have hle : B.length ≤ (availOf (inputStream B) (⟨[]⟩ : CodecCtx)).length := by
      simp [availOf, inputStream]
    obtain ⟨q, x, heq⟩ := (readAux_spec B.length (inputStream B) ⟨[]⟩).1 hle
    have havail : (availOf (inputStream B) (⟨[]⟩ : CodecCtx)).take B.length = B := by
      simp [availOf, inputStream]
    refine ⟨{ m_child_stream :=
                { data := (inputStream B).data, pos := q,
                  closed := (inputStream B).closed,
                  can_read := (inputStream B).can_read,
                  can_write := (inputStream B).can_write },
              m_deflate := ⟨[]⟩, m_inflate := x,
              m_didWrite := false, closed := false }, ?_⟩
    simp only [ZStream.read, mkZStream]
    rw [if_neg (by simp)]
    rw [heq, havail]

/-- C2: Exact read or error — on every adapter, a successful `read(buffer, n)`
delivers exactly `n` bytes, never fewer; and when the adapter is open but the
child's compressed payload decodes to fewer than `n` bytes, `read` fails with
`PrematureEndOfStream` instead of returning a truncated result. -/
theorem read_exact_or_premature (s : ZStream) (n : Nat) :
    (∀ bs s', s.read n = Except.ok (bs, s') → bs.length = n) ∧
    (s.closed = false → s.avail.length < n →
      s.read n = Except.error Err.PrematureEndOfStream) := by
  constructor
  · intro bs s' h
    exact (read_ok_shape s n bs s' h).1
  · intro hcl hlt
    have herr := (readAux_spec n s.m_child_stream s.m_inflate).2 hlt
    rw [ZStream.read, if_neg (by simp [hcl]), herr]

/-- Witness for C2 at a concrete input: a 2-byte payload cannot satisfy a
3-byte read. -/
theorem read_exact_or_premature_witness :
    (mkZStream (inputStream [1, 2])).read 3 =
      Except.error Err.PrematureEndOfStream :=
  (read_exact_or_premature (mkZStream (inputStream [1, 2])) 3).2 rfl (by decide)

/-- C3: Exact write — on an open adapter, `write(data, n)` succeeds, consumes
all `n` bytes (every written byte is in the child stream or in the compress
context, in order, with nothing lost or duplicated), sets `m_didWrite`, and
after `close()` all bytes written so far have been pushed to the child. -/
theorem write_exact (s : ZStream) (d : List Nat) (h : s.closed = false) :
    ∃ s', s.write d = Except.ok s' ∧ s'.m_didWrite = true ∧
      s'.m_child_stream.data ++ s'.m_deflate.pending =
        s.m_child_stream.data ++ s.m_deflate.pending ++ d ∧
      s'.close.m_child_stream.data =
        s.m_child_stream.data ++ s.m_deflate.pending ++ d := by
  refine ⟨{ s with
      m_child_stream := (emitFull (s.m_deflate.pending ++ d) s.m_child_stream).2,
      m_deflate := ⟨(emitFull (s.m_deflate.pending ++ d) s.m_child_stream).1⟩,
      m_didWrite := true }, ?_, rfl, ?_, ?_⟩
  · rw [ZStream.write, if_neg (by simp [h])]
  · rw [emitFull_append, List.append_assoc]
  · simp only [ZStream.close]
    rw [if_neg (by simp [h])]
    simp only [if_true]
    rw [emitAll_data, emitFull_append, List.append_assoc]

/-- Witness for C3 at a concrete input. -/
theorem write_exact_witness :
    ∃ s', (mkZStream emptyStream).write [7, 8, 9] = Except.ok s' ∧
      s'.m_didWrite = true ∧
      s'.m_child_stream.data ++ s'.m_deflate.pending =
        (mkZStream emptyStream).m_child_stream.data ++
          (mkZStream emptyStream).m_deflate.pending ++ [7, 8, 9] ∧
      s'.close.m_child_stream.data =
        (mkZStream emptyStream).m_child_stream.data ++
          (mkZStream emptyStream).m_deflate.pending ++ [7, 8, 9] :=
  write_exact (mkZStream emptyStream) [7, 8, 9] rfl

/-- C4: the claim fails on the code.  After `close()` on an adapter whose
child is still open, every subsequent `read`/`write`/`flush` does fail with
`AlreadyClosed` — but `is_closed()` (zstream.h line 45) delegates to the
still-open child stream, which `close()` never closes, so it returns `false`
rather than `true`, contradicting the header's own doc comments for
`close()` and `is_closed()`. -/
theorem close_state_divergence :
    ((mkZStream emptyStream).close).read 1 = Except.error Err.AlreadyClosed ∧
    ((mkZStream emptyStream).close).write [0] = Except.error Err.AlreadyClosed ∧
    ((mkZStream emptyStream).close).flush = Except.error Err.AlreadyClosed ∧
    ((mkZStream emptyStream).close).is_closed = false :=
  ⟨rfl, rfl, rfl, rfl⟩

/-- C5: Idempotent close — a second `close()` leaves the adapter (and with
it the child stream) exactly as the first left them, and, the model being a
total function, it cannot raise. -/
theorem close_idempotent (s : ZStream) : s.close.close = s.close :=
  closeClose s

/-- C6: the forward-only operations `seek`, `truncate`, `tell` and `size`
fail with `UnsupportedOperation` on every call, in every adapter state. -/
theorem forward_only_ops_fail (s : ZStream) (n : Nat) :
    s.seek n = Except.error Err.UnsupportedOperation ∧
    s.truncate n = Except.error Err.UnsupportedOperation ∧
    s.tell = Except.error Err.UnsupportedOperation ∧
    s.size = Except.error Err.UnsupportedOperation :=
  ⟨rfl, rfl, rfl, rfl⟩

/-- C7: Close without writes emits nothing — on an adapter on which `write`
never succeeded (`m_didWrite = false`), `close()` leaves the child stream
untouched (zero bytes written, no end-of-stream frame), and a second
`close()` is a no-op. -/
theorem close_without_writes_no_output (s : ZStream) (h : s.m_didWrite = false) :
    s.close.m_child_stream = s.m_child_stream ∧ s.close.close = s.close := by
  refine ⟨?_, closeClose s⟩
  rw [ZStream.close]
  by_cases hc : s.closed
  · simp [hc]
  · simp [hc, h]

/-- Witness for C7 at a concrete input. -/
theorem close_without_writes_witness :
    (mkZStream emptyStream).close.m_child_stream =
      (mkZStream emptyStream).m_child_stream ∧
    (mkZStream emptyStream).close.close = (mkZStream emptyStream).close :=
  close_without_writes_no_output (mkZStream emptyStream) rfl

/-- C8: the adapter never closes the child stream — `close`, successful
`write`s, successful `read`s and successful `flush`es all leave the child's
own open/closed state exactly as it was. -/
theorem child_never_closed (s : ZStream) :
    s.close.m_child_stream.closed = s.m_child_stream.closed ∧
    (∀ d s', s.write d = Except.ok s' →
      s'.m_child_stream.closed = s.m_child_stream.closed) ∧
    (∀ n bs s', s.read n = Except.ok (bs, s') →
      s'.m_child_stream.closed = s.m_child_stream.closed) ∧
    (∀ s', s.flush = Except.ok s' →
      s'.m_child_stream.closed = s.m_child_stream.closed) := by
  refine ⟨?_, ?_, ?_, ?_⟩
  · rw [ZStream.close]
    by_cases hc : s.closed
    · simp [hc]
    · by_cases hw : s.m_didWrite
      · simp [hc, hw, emitAll_closed]
      · simp [hc, hw]
  · intro d s' h
    by_cases hc : s.closed
    · rw [ZStream.write, if_pos (by simp [hc])] at h
      exact absurd h (by simp)
    · rw [ZStream.write, if_neg (by simp [hc])] at h
      simp only [Except.ok.injEq] at h
      subst h
      exact emitFull_closed _ _
  · intro n bs s' h
    exact (read_ok_shape s n bs s' h).2.2.2.1
  · intro s' h
    by_cases hc : s.closed
    · rw [ZStream.flush, if_pos (by simp [hc])] at h
      exact absurd h (by simp)
    · rw [ZStream.flush, if_neg (by simp [hc])] at h
      by_cases hw : s.m_didWrite
      · rw [if_pos (by simp [hw])] at h
        simp only [Except.ok.injEq] at h
        subst h
        exact emitAll_closed _ _
      · rw [if_neg (by simp [hw])] at h
        simp only [Except.ok.injEq] at h
        subst h
        rfl

/-- Witness for C8 at a concrete input: a write of one byte through a fresh
adapter leaves the child stream open. -/
theorem child_never_closed_witness :
    ({ m_child_stream := emptyStream, m_deflate := ⟨[5]⟩, m_inflate := ⟨[]⟩,
       m_didWrite := true, closed := false } : ZStream).m_child_stream.closed =
      (mkZStream emptyStream).m_child_stream.closed :=
  (child_never_closed (mkZStream emptyStream)).2.1 [5]
    { m_child_stream := emptyStream, m_deflate := ⟨[5]⟩, m_inflate := ⟨[]⟩,
      m_didWrite := true, closed := false }
    (by
      simp only [ZStream.write, mkZStream]
      rw [if_neg (by simp)]
      rw [emitFull, dif_neg (by decide)]
      rfl)

/-- C9: Capability delegation — in every adapter state, `can_read()` and
`can_write()` return exactly the child stream's corresponding capability,
with no additional restriction from the adapter. -/
theorem capability_delegation (s : ZStream) :
    s.can_read = s.m_child_stream.can_read ∧
    s.can_write = s.m_child_stream.can_write :=
  ⟨rfl, rfl⟩

/-- C10 (implicit): `is_closed()` is a null-guarded delegation to the child:
it returns `false` on a null handle, the child's own `closed` state
otherwise; the adapter's own close history is never consulted, so it flips
to `true` exactly when the child itself is closed, however that happened. -/
theorem is_closed_null_guarded_delegation :
    is_closed_of none = false ∧
    (∀ c : Stream, is_closed_of (some c) = c.closed) ∧
    (∀ s : ZStream, s.is_closed = s.m_child_stream.closed) ∧
    (∀ s : ZStream,
      ({ s with m_child_stream :=
          { s.m_child_stream with closed := true } } : ZStream).is_closed = true) ∧
    (∀ (s : ZStream) (b : Bool),
      ({ s with closed := b } : ZStream).is_closed = s.is_closed) :=
  ⟨rfl, fun _ => rfl, fun _ => rfl, fun _ => rfl, fun _ _ => rfl⟩

end Mitsuba
